import Mathlib

/-!
Verification of the scroll-tracking accumulator, the legacy-widget form
adapter and the mobile media-upload bridge contract of this repository,
as a shallow embedding in Lean.
-/

/-! ## Scroll-tracking accumulator (`useScrollback`)

The reducer closes over `lastScrollTop` (a mutable ref) and a bound `max`.
We embed the pair (accumulator, last scroll top) as an explicit state and
the reducer body as a pure step function on it.  Scroll offsets and the
bound are integers.
-/

/-- State threaded through the scroll reducer: the accumulator value
(`scrollback`) and the previously sampled offset (`lastScrollTop`). -/
structure ScrollState where
  scrollback : ℤ
  lastScrollTop : ℤ
  deriving Repr, DecidableEq

/-- One step of the reducer in `useScrollback`: `scrollDiff` is the new
offset minus the remembered one; a negative diff (upward scroll) raises the
accumulator clamped at `max`; otherwise, when the accumulator is positive,
it is lowered clamped at `0`; otherwise it is left unchanged. -/
def scrollReducer (max : ℤ) (s : ScrollState) (scrollTop : ℤ) : ScrollState :=
  let scrollDiff := scrollTop - s.lastScrollTop
  let scrollback :=
    if scrollDiff < 0 then
      min max (s.scrollback - scrollDiff)
    else if 0 < s.scrollback then
      Max.max 0 (s.scrollback - scrollDiff)
    else
      s.scrollback
  { scrollback := scrollback, lastScrollTop := scrollTop }

/-- `useReducer( reducer, 0 )`: the accumulator starts at `0`; the ref is
initialised with the element's scroll offset at mount. -/
def scrollInit (initialTop : ℤ) : ScrollState :=
  { scrollback := 0, lastScrollTop := initialTop }

/-- Feeding a whole sequence of scroll samples through the reducer. -/
def runScrollback (max : ℤ) (s : ScrollState) (samples : List ℤ) : ScrollState :=
  samples.foldl (scrollReducer max) s

/-- The step rule exactly as the spec words it: `delta` is new offset minus
previous offset; a negative delta increases the accumulator by `-delta`
clamped at `max`; otherwise the accumulator is decreased by `delta`
clamped at `0`.  Written from the spec, to be compared with
`scrollReducer`, which is written from the code. -/
def specScrollStep (max acc prevOff newOff : ℤ) : ℤ :=
  let delta := newOff - prevOff
  if delta < 0 then min max (acc + (-delta)) else Max.max 0 (acc - delta)

lemma scrollReducer_bounds (max : ℤ) (hmax : 0 ≤ max) (s : ScrollState)
    (h0 : 0 ≤ s.scrollback) (h1 : s.scrollback ≤ max) (t : ℤ) :
    0 ≤ (scrollReducer max s t).scrollback ∧ (scrollReducer max s t).scrollback ≤ max := by
  unfold scrollReducer
  dsimp only
  split
  · constructor
    · exact le_min hmax (by omega)
    · exact min_le_left _ _
  · split
    · constructor
      · exact le_max_left _ _
      · exact max_le hmax (by omega)
    · exact ⟨h0, h1⟩

lemma runScrollback_bounds (max : ℤ) (hmax : 0 ≤ max) (samples : List ℤ)
    (s : ScrollState) (h0 : 0 ≤ s.scrollback) (h1 : s.scrollback ≤ max) :
    0 ≤ (runScrollback max s samples).scrollback ∧
      (runScrollback max s samples).scrollback ≤ max := by
  induction samples generalizing s with
  | nil => exact ⟨h0, h1⟩
  | cons t ts ih =>
    have hb := scrollReducer_bounds max hmax s h0 h1 t
    exact ih (scrollReducer max s t) hb.1 hb.2

/-- Claim C1: from the initial accumulator 0 and a bound `max ≥ 0`, the
accumulator stays within `[0, max]` after every prefix of any sequence of
scroll samples. -/
theorem scrollback_bounded (max initialTop : ℤ) (hmax : 0 ≤ max)
    (samples : List ℤ) :
    0 ≤ (runScrollback max (scrollInit initialTop) samples).scrollback ∧
      (runScrollback max (scrollInit initialTop) samples).scrollback ≤ max :=
  runScrollback_bounds max hmax samples (scrollInit initialTop) le_rfl hmax

theorem scrollback_bounded_witness :
    (0 : ℤ) ≤ 5 ∧
      (0 ≤ (runScrollback 5 (scrollInit 10) [7, 2, 0, 9]).scrollback ∧
        (runScrollback 5 (scrollInit 10) [7, 2, 0, 9]).scrollback ≤ 5) :=
  ⟨by decide, scrollback_bounded 5 10 (by decide) [7, 2, 0, 9]⟩

/-- Claim C2, counterexample: at the (unreachable) accumulator value `-1`
with a zero offset delta, the code leaves the accumulator at `-1` while the
spec's rule clamps it to `0`, so the step rules do not agree at every
previous accumulator value. -/
theorem scrollReducer_ne_spec_at_neg :
    (scrollReducer 5 { scrollback := -1, lastScrollTop := 0 } 0).scrollback ≠
      specScrollStep 5 (-1) 0 0 := by
  decide

/-- Claim C2, amended: for every nonnegative previous accumulator value,
previous offset and new offset, one reducer step agrees with the spec's
rule (negative delta: increase by `-delta` clamped at `max`; otherwise:
decrease by `delta` clamped at `0`). -/
theorem scrollReducer_eq_spec (max acc prevOff newOff : ℤ) (hacc : 0 ≤ acc) :
    (scrollReducer max { scrollback := acc, lastScrollTop := prevOff } newOff).scrollback =
      specScrollStep max acc prevOff newOff := by
  unfold scrollReducer specScrollStep
  dsimp only
  split
  · ring_nf
  · split
    · rfl
    · have h : acc = 0 := by omega
      subst h
      rw [Int.max_eq_left (by omega)]

theorem scrollReducer_eq_spec_witness :
    (0 : ℤ) ≤ 2 ∧
      (scrollReducer 9 { scrollback := 2, lastScrollTop := 4 } 7).scrollback =
        specScrollStep 9 2 4 7 :=
  ⟨by decide, scrollReducer_eq_spec 9 2 4 7 (by decide)⟩

/-- Claim C5: for an accumulator `s ∈ [0, max]` and `d > 0`, an upward
sample of `d` (offset drops by `d`) followed by a downward sample of `d`
(offset rises by `d`) returns the accumulator to `s`, provided no clamping
occurs (`s + d ≤ max`). -/
theorem scrollback_up_down_roundtrip (max s d prevOff : ℤ)
    (h0 : 0 ≤ s) (h1 : s ≤ max) (hd : 0 < d) (hnoclamp : s + d ≤ max) :
    (scrollReducer max
        (scrollReducer max { scrollback := s, lastScrollTop := prevOff }
          (prevOff - d))
        (prevOff - d + d)).scrollback = s := by
  unfold scrollReducer
  dsimp only
  have hup : prevOff - d - prevOff < 0 := by omega
  rw [if_pos hup]
  have hmin : min max (s - (prevOff - d - prevOff)) = s + d := by
    rw [min_eq_right (by omega)]
    omega
  rw [hmin]
  have hdown : ¬ (prevOff - d + d - (prevOff - d) < 0) := by omega
  rw [if_neg hdown, if_pos (by omega : (0 : ℤ) < s + d)]
  rw [max_eq_right
    (by omega : (0 : ℤ) ≤ s + d - (prevOff - d + d - (prevOff - d)))]
  omega

theorem scrollback_up_down_roundtrip_witness :
    ((0 : ℤ) ≤ 3 ∧ (3 : ℤ) ≤ 10 ∧ (0 : ℤ) < 4 ∧ (3 : ℤ) + 4 ≤ 10) ∧
      (scrollReducer 10
          (scrollReducer 10 { scrollback := 3, lastScrollTop := 20 } (20 - 4))
          (20 - 4 + 4)).scrollback = 3 :=
  ⟨by decide,
    scrollback_up_down_roundtrip 10 3 4 20 (by decide) (by decide) (by decide)
      (by decide)⟩

/-- Claim C6: if the accumulator equals `max`, any further upward sample
(new offset strictly below the remembered one, so a negative delta) leaves
it at `max`. -/
theorem scrollback_clamp_idempotent (max prevOff newOff : ℤ)
    (hup : newOff < prevOff) :
    (scrollReducer max { scrollback := max, lastScrollTop := prevOff }
        newOff).scrollback = max := by
  unfold scrollReducer
  dsimp only
  rw [if_pos (by omega : newOff - prevOff < 0)]
  exact min_eq_left (by omega)

theorem scrollback_clamp_idempotent_witness :
    (3 : ℤ) < 8 ∧
      (scrollReducer 6 { scrollback := 6, lastScrollTop := 8 } 3).scrollback = 6 :=
  ⟨by decide, scrollback_clamp_idempotent 6 8 3 (by decide)⟩

/-! ## Legacy widget form adapter (`Form` in
`packages/widgets/src/blocks/legacy-widget/edit/form.js`)

The effect constructs a `Control` for the current `instance` prop unless
that value is found in `incomingInstances` (a change the control itself
originated); its cleanup destroys the control unless the instance it
closed over is found in `outgoingInstances`.  When the effect early
returns it registers no cleanup.  Instance values are opaque references,
embedded as naturals; the two JS `Set`s become `Finset ℕ`.  React runs a
registered cleanup before the next effect whenever the dependencies
change; we embed one such prop-update cycle as cleanup-then-effect, with
Booleans reporting whether a control was destroyed and constructed.
-/

/-- The adapter's state across effect runs: the two in-flight sets, the
currently mounted `instance` prop, and the registered cleanup, carrying
the instance value its closure captured (`none` after an effect that
early-returned). -/
structure FormState where
  outgoingInstances : Finset ℕ
  incomingInstances : Finset ℕ
  inst : ℕ
  cleanup : Option ℕ
  deriving DecidableEq

/-- One effect run with instance `i`: if `i` is in `incomingInstances` it
is deleted from the set and the effect returns early (nothing constructed,
no cleanup registered); otherwise a control bound to `i` is constructed
and a cleanup capturing `i` is registered.  The Boolean reports whether a
control was constructed. -/
def effectRun (s : FormState) (i : ℕ) : FormState × Bool :=
  if i ∈ s.incomingInstances then
    ({ s with incomingInstances := s.incomingInstances.erase i,
              inst := i, cleanup := none }, false)
  else
    ({ s with inst := i, cleanup := some i }, true)

/-- Running the registered cleanup, if any: if the captured instance is in
`outgoingInstances` it is deleted from the set and the control survives;
otherwise the control is destroyed.  The Boolean reports whether a control
was destroyed. -/
def cleanupRun (s : FormState) : FormState × Bool :=
  match s.cleanup with
  | none => (s, false)
  | some a =>
    if a ∈ s.outgoingInstances then
      ({ s with outgoingInstances := s.outgoingInstances.erase a,
                cleanup := none }, false)
    else
      ({ s with cleanup := none }, true)

/-- A prop update delivering instance `i`: React runs the registered
cleanup, then the effect with the new value.  Returns (state, destroyed,
constructed). -/
def updateCycle (s : FormState) (i : ℕ) : FormState × Bool × Bool :=
  let c := cleanupRun s
  let e := effectRun c.1 i
  (e.1, c.2, e.2)

/-- The control's own `onChangeInstance( nextInstance )` handler: it adds
the instance its closure captured to `outgoingInstances` and the next
value to `incomingInstances`, then relays `next` upward. -/
def selfChange (s : FormState) (captured next : ℕ) : FormState :=
  { s with outgoingInstances := insert captured s.outgoingInstances,
           incomingInstances := insert next s.incomingInstances }

/-- The initial mount with instance `i`: both sets start empty and the
first effect runs with no prior cleanup. -/
def initialMount (i : ℕ) : FormState × Bool :=
  effectRun { outgoingInstances := ∅, incomingInstances := ∅,
              inst := i, cleanup := none } i

/-- States the adapter can actually be in. -/
inductive FormReachable : FormState → Prop
  | mount (i : ℕ) : FormReachable (initialMount i).1
  | update {s : FormState} (h : FormReachable s) (i : ℕ) :
      FormReachable (updateCycle s i).1
  | change {s : FormState} (h : FormReachable s) (captured next : ℕ) :
      FormReachable (selfChange s captured next)

lemma effectRun_cleanup_inv (s : FormState) (i : ℕ) :
    (effectRun s i).1.cleanup = none ∨
      (effectRun s i).1.cleanup = some (effectRun s i).1.inst := by
  unfold effectRun
  split
  · exact Or.inl rfl
  · exact Or.inr rfl

/-- In every reachable state the registered cleanup, when present,
captures exactly the currently mounted instance. -/
lemma reachable_cleanup_captures_inst {s : FormState} (h : FormReachable s) :
    s.cleanup = none ∨ s.cleanup = some s.inst := by
  induction h with
  | mount i => exact effectRun_cleanup_inv _ i
  | update h i ih => exact effectRun_cleanup_inv _ i
  | change h captured next ih => exact ih

lemma cleanupRun_incoming (s : FormState) :
    (cleanupRun s).1.incomingInstances = s.incomingInstances := by
  unfold cleanupRun
  rcases s.cleanup with _ | a
  · rfl
  · dsimp only
    split <;> rfl

lemma effectRun_not_incoming {s : FormState} {i : ℕ} (b : ℕ)
    (hb : b ∉ s.incomingInstances) :
    b ∉ (effectRun s i).1.incomingInstances := by
  unfold effectRun
  split
  · dsimp only
    intro hmem
    exact hb (Finset.mem_of_mem_erase hmem)
  · exact hb

lemma effectRun_constructs {s : FormState} {i : ℕ} (h : i ∉ s.incomingInstances) :
    (effectRun s i).2 = true := by
  simp [effectRun, h]

lemma updateCycle_not_incoming {s : FormState} {i : ℕ} (b : ℕ)
    (hb : b ∉ s.incomingInstances) :
    b ∉ (updateCycle s i).1.incomingInstances := by
  unfold updateCycle
  dsimp only
  exact effectRun_not_incoming b (by rw [cleanupRun_incoming]; exact hb)

lemma updateCycle_constructs {s : FormState} {i : ℕ}
    (h : i ∉ s.incomingInstances) :
    (updateCycle s i).2.2 = true := by
  unfold updateCycle
  dsimp only
  exact effectRun_constructs (by rw [cleanupRun_incoming]; exact h)

/-- Claim C3: after the control itself changes the mounted instance to `B`
via `onChangeInstance`, the prop update that then delivers the same `B`
neither destroys the existing control nor constructs a new one — no
remount.  The hypothesis, an invariant of every reachable state, says the
registered cleanup (if any) captures the mounted instance `A`. -/
theorem form_self_change_no_remount (s : FormState) (B : ℕ)
    (hc : s.cleanup = none ∨ s.cleanup = some s.inst) :
    (updateCycle (selfChange s s.inst B) B).2.1 = false ∧
      (updateCycle (selfChange s s.inst B) B).2.2 = false := by
  unfold updateCycle
  rcases hc with hc | hc <;>
    simp [cleanupRun, effectRun, selfChange, hc, Finset.mem_insert_self]

theorem form_self_change_no_remount_witness :
    ((initialMount 1).1.cleanup = none ∨
        (initialMount 1).1.cleanup = some (initialMount 1).1.inst) ∧
      ((updateCycle (selfChange (initialMount 1).1 (initialMount 1).1.inst 2) 2).2.1
          = false ∧
        (updateCycle (selfChange (initialMount 1).1 (initialMount 1).1.inst 2) 2).2.2
          = false) :=
  ⟨by decide, form_self_change_no_remount (initialMount 1).1 2 (by decide)⟩

/-- Claim C4, counterexample: mount instance `1`, let the control change
itself to `2`, then deliver an external update to `3` — a value never
passed to `onChangeInstance`.  The cleanup finds the captured instance `1`
in `outgoingInstances` and returns without destroying the control, so the
claimed unconditional destruction fails. -/
theorem form_external_update_no_destroy_cex :
    3 ∉ (selfChange (initialMount 1).1 1 2).incomingInstances ∧
      (updateCycle (selfChange (initialMount 1).1 1 2) 3).2.1 = false := by
  decide

/-- Claim C4, amended: an external prop update to a value `C` not recorded
as self-originated destroys the previous control and constructs a new
control bound to `C`, provided the current mount registered a cleanup for
the mounted instance and that instance has no pending self-originated
change (it is not in `outgoingInstances`). -/
theorem form_external_update_remounts (s : FormState) (C : ℕ)
    (hC : C ∉ s.incomingInstances) (hcl : s.cleanup = some s.inst)
    (hout : s.inst ∉ s.outgoingInstances) :
    (updateCycle s C).2.1 = true ∧ (updateCycle s C).2.2 = true ∧
      (updateCycle s C).1.inst = C ∧ (updateCycle s C).1.cleanup = some C := by
  unfold updateCycle
  simp [cleanupRun, effectRun, hcl, hout, hC]

theorem form_external_update_remounts_witness :
    (3 ∉ (initialMount 1).1.incomingInstances ∧
        (initialMount 1).1.cleanup = some (initialMount 1).1.inst ∧
        (initialMount 1).1.inst ∉ (initialMount 1).1.outgoingInstances) ∧
      ((updateCycle (initialMount 1).1 3).2.1 = true ∧
        (updateCycle (initialMount 1).1 3).2.2 = true ∧
        (updateCycle (initialMount 1).1 3).1.inst = 3 ∧
        (updateCycle (initialMount 1).1 3).1.cleanup = some 3) :=
  ⟨by decide,
    form_external_update_remounts (initialMount 1).1 3 (by decide) (by decide)
      (by decide)⟩

/-- Claim C9: the remount suppression is one-shot.  If `B` is recorded in
`incomingInstances`, the first effect run with `B` constructs nothing and
deletes `B` from the set, so after any further prop-update cycle (to any
value `c`) a cycle delivering `B` again does construct a new control — a
remount occurs. -/
theorem form_suppression_one_shot (s : FormState) (B c : ℕ)
    (hB : B ∈ s.incomingInstances) :
    (effectRun s B).2 = false ∧
      B ∉ (effectRun s B).1.incomingInstances ∧
      (updateCycle (updateCycle (effectRun s B).1 c).1 B).2.2 = true := by
  refine ⟨?_, ?_, ?_⟩
  · simp [effectRun, hB]
  · simp [effectRun, hB]
  · have h1 : B ∉ (effectRun s B).1.incomingInstances := by
      simp [effectRun, hB]
    exact updateCycle_constructs (updateCycle_not_incoming B h1)

theorem form_suppression_one_shot_witness :
    2 ∈ (selfChange (initialMount 1).1 1 2).incomingInstances ∧
      ((effectRun (selfChange (initialMount 1).1 1 2) 2).2 = false ∧
        2 ∉ (effectRun (selfChange (initialMount 1).1 1 2) 2).1.incomingInstances ∧
        (updateCycle
            (updateCycle (effectRun (selfChange (initialMount 1).1 1 2) 2).1 7).1
            2).2.2 = true) :=
  ⟨by decide, form_suppression_one_shot (selfChange (initialMount 1).1 1 2) 2 7
    (by decide)⟩

/-! ### Error relay of the form adapter

`onError( error )` calls
`createNotice( 'error', error?.message ?? __( '…' ) )`.  A JS error value
may itself be nullish and its `message` may be nullish, so the argument is
embedded as `Option (Option String)`: `error?.message` is the
optional-chained join, and `?? fallback` substitutes the fallback exactly
when the left side is nullish. -/

/-- The fixed fallback notice text in `form.js`. -/
def fallbackMessage : String :=
  "An error occured while fetching or updating the widget."

/-- The notice created by the adapter's `onError` handler: a kind and a
message, `( 'error', error?.message ?? fallbackMessage )`. -/
def onErrorNotice (error : Option (Option String)) : String × String :=
  ("error", (error.bind id).getD fallbackMessage)

/-- Claim C7: every error delivered to `onError` creates an error notice
whose message is the error's own message when it has one, and the fixed
fallback text when the error (or its message) is absent. -/
theorem form_onError_notice (error : Option (Option String)) :
    (onErrorNotice error).1 = "error" ∧
      (onErrorNotice error).2 =
        match error with
        | some (some m) => m
        | _ => "An error occured while fetching or updating the widget." := by
  rcases error with _ | (_ | m) <;> exact ⟨rfl, rfl⟩

/-- Claim C10: the fallback text is used only for a nullish message (or a
nullish error): a present message — the empty string included — passes
through unchanged, and the empty string differs from the fallback text. -/
theorem form_onError_fallback_only_nullish :
    (∀ m : String, (onErrorNotice (some (some m))).2 = m) ∧
      (onErrorNotice (some (some ""))).2 = "" ∧
      "" ≠ fallbackMessage ∧
      (onErrorNotice (some none)).2 = fallbackMessage ∧
      (onErrorNotice none).2 = fallbackMessage :=
  ⟨fun _ => rfl, rfl, by decide, rfl, rfl⟩

/-! ## Mobile media bridge contract
(`GutenbergBridgeJS2Parent.MediaUploadCallback`)

The Java source only declares the callback interface — `selected`,
`progress`, `succeeded`, `failed`, keyed by an integer media identifier —
with no logic; the delivery discipline is implemented by the native host,
outside this repository, so it is modelled here from the spec. -/

/-- One invocation of a `MediaUploadCallback` method, keyed by its integer
media identifier; progress is a fraction (`float` in the interface). -/
inductive UploadEvent where
  | uploadMediaFileSelected (mediaId : ℤ) (mediaUri : String)
  | mediaFileUploadProgress (mediaId : ℤ) (progress : ℚ)
  | mediaFileUploadSucceeded (mediaId : ℤ) (mediaUrl : String)
  | mediaFileUploadFailed (mediaId : ℤ)
  deriving DecidableEq

/-- The media identifier an invocation is keyed by. -/
def UploadEvent.mediaId : UploadEvent → ℤ
  | uploadMediaFileSelected i _ => i
  | mediaFileUploadProgress i _ => i
  | mediaFileUploadSucceeded i _ => i
  | mediaFileUploadFailed i => i

/-- Modelled from the spec: the phases of the "multi-phase upload lifecycle
keyed by an integer media identifier: selection, fractional progress
updates, success with resulting URL, or failure", which the Java interface
declares but does not implement. -/
inductive UploadPhase where
  | idle
  | uploading
  | succeeded
  | failed
  deriving DecidableEq

/-- Modelled from the spec: which callback the lifecycle permits in which
phase — selection starts an upload, progress repeats during it, success or
failure ends it, and nothing is delivered after either terminal phase. -/
def uploadStep : UploadPhase → UploadEvent → Option UploadPhase
  | .idle, .uploadMediaFileSelected _ _ => some .uploading
  | .uploading, .mediaFileUploadProgress _ _ => some .uploading
  | .uploading, .mediaFileUploadSucceeded _ _ => some .succeeded
  | .uploading, .mediaFileUploadFailed _ => some .failed
  | _, _ => none

/-- Running the lifecycle over a sequence of invocations; `none` marks a
sequence the lifecycle does not permit. -/
def runUpload : UploadPhase → List UploadEvent → Option UploadPhase
  | p, [] => some p
  | p, e :: es =>
    match uploadStep p e with
    | none => none
    | some q => runUpload q es

/-- The invocations of a trace keyed by media identifier `i`. -/
def eventsFor (i : ℤ) (tr : List UploadEvent) : List UploadEvent :=
  tr.filter fun e => e.mediaId == i

/-- Modelled from the spec: a trace of callback invocations is deliverable
when, for each media identifier occurring in it, the invocations keyed by
that identifier follow the lifecycle. -/
def validDelivery (tr : List UploadEvent) : Prop :=
  ∀ i ∈ tr.map UploadEvent.mediaId,
    (runUpload UploadPhase.idle (eventsFor i tr)).isSome = true

lemma runUpload_append (p : UploadPhase) (xs ys : List UploadEvent) :
    runUpload p (xs ++ ys) = (runUpload p xs).bind fun q => runUpload q ys := by
  induction xs generalizing p with
  | nil => rfl
  | cons e es ih =>
    simp only [List.cons_append, runUpload]
    cases uploadStep p e with
    | none => rfl
    | some q => exact ih q

lemma runUpload_failed_nil {es : List UploadEvent} {q : UploadPhase}
    (h : runUpload UploadPhase.failed es = some q) : es = [] := by
  cases es with
  | nil => rfl
  | cons e es' =>
    simp only [runUpload] at h
    cases e <;> simp [uploadStep] at h

lemma uploadStep_failed_event {p q : UploadPhase} {i : ℤ}
    (h : uploadStep p (UploadEvent.mediaFileUploadFailed i) = some q) :
    q = UploadPhase.failed := by
  cases p <;> simp [uploadStep] at h
  exact h.symm

/-- Claim C8: in any deliverable trace, once the invocations keyed by a
media identifier contain a progress report of `0.5` followed later by a
failure, nothing follows the failure for that identifier — in particular
no further progress or success invocation is delivered for it. -/
theorem upload_failed_terminal (tr : List UploadEvent) (i : ℤ)
    (l1 l2 l3 : List UploadEvent) (hvalid : validDelivery tr)
    (hshape : eventsFor i tr =
      l1 ++ UploadEvent.mediaFileUploadProgress i (1 / 2) ::
        (l2 ++ UploadEvent.mediaFileUploadFailed i :: l3)) :
    ∀ e ∈ l3, (∀ p, e ≠ UploadEvent.mediaFileUploadProgress i p) ∧
      (∀ u, e ≠ UploadEvent.mediaFileUploadSucceeded i u) := by
  have hmem : UploadEvent.mediaFileUploadProgress i (1 / 2) ∈ eventsFor i tr := by
    rw [hshape]
    simp
  have hitr : i ∈ tr.map UploadEvent.mediaId :=
    List.mem_map.mpr
      ⟨UploadEvent.mediaFileUploadProgress i (1 / 2),
        List.mem_of_mem_filter hmem, rfl⟩
  have hsome := hvalid i hitr
  obtain ⟨qf, hqf⟩ := Option.isSome_iff_exists.mp hsome
  have hshape2 : eventsFor i tr =
      (l1 ++ UploadEvent.mediaFileUploadProgress i (1 / 2) :: l2) ++
        UploadEvent.mediaFileUploadFailed i :: l3 := by
    rw [hshape]
    simp
  rw [hshape2, runUpload_append] at hqf
  cases hpre : runUpload UploadPhase.idle
      (l1 ++ UploadEvent.mediaFileUploadProgress i (1 / 2) :: l2) with
  | none =>
    rw [hpre] at hqf
    simp at hqf
  | some q3 =>
    rw [hpre] at hqf
    simp only [Option.some_bind] at hqf
    simp only [runUpload] at hqf
    cases hstep : uploadStep q3 (UploadEvent.mediaFileUploadFailed i) with
    | none =>
      rw [hstep] at hqf
      simp at hqf
    | some q4 =>
      rw [hstep] at hqf
      have hq4 : q4 = UploadPhase.failed := uploadStep_failed_event hstep
      rw [hq4] at hqf
      have hnil : l3 = [] := runUpload_failed_nil hqf
      subst hnil
      intro e he
      cases he

theorem upload_failed_terminal_witness :
    (validDelivery
        [UploadEvent.uploadMediaFileSelected 1 "file",
          UploadEvent.mediaFileUploadProgress 1 (1 / 2),
          UploadEvent.mediaFileUploadFailed 1] ∧
      eventsFor 1
          [UploadEvent.uploadMediaFileSelected 1 "file",
            UploadEvent.mediaFileUploadProgress 1 (1 / 2),
            UploadEvent.mediaFileUploadFailed 1] =
        [UploadEvent.uploadMediaFileSelected 1 "file"] ++
          UploadEvent.mediaFileUploadProgress 1 (1 / 2) ::
            ([] ++ UploadEvent.mediaFileUploadFailed 1 :: [])) ∧
      ∀ e ∈ ([] : List UploadEvent),
        (∀ p, e ≠ UploadEvent.mediaFileUploadProgress 1 p) ∧
          (∀ u, e ≠ UploadEvent.mediaFileUploadSucceeded 1 u) :=
  ⟨⟨by
      intro i hi
      simp [UploadEvent.mediaId] at hi
      subst hi
      rfl, rfl⟩,
    upload_failed_terminal
      [UploadEvent.uploadMediaFileSelected 1 "file",
        UploadEvent.mediaFileUploadProgress 1 (1 / 2),
        UploadEvent.mediaFileUploadFailed 1] 1
      [UploadEvent.uploadMediaFileSelected 1 "file"] [] []
      (by
        intro i hi
        simp [UploadEvent.mediaId] at hi
        subst hi
        rfl)
      rfl⟩
